import Mathlib

/-!
A shallow embedding of the translation resolution and caching core of
`src/parler/models.py` (django-parler): the `TranslatableModel` and
`TranslatedFieldsModel` classes.  Python dictionaries become association
lists, the Django ORM backing store becomes an explicit list of rows inside
a `World` state record, and methods that mutate `self`, the database or the
shared cache become functions returning the updated states.  Helpers of the
repository that live outside `src/` (the `parler.cache` module and the
descriptor write path of `parler.fields`) are modelled from the spec and
marked as such in their doc comments.  Error messages are not modelled:
a raised `DoesNotExist` (the `TranslationDoesNotExist` tagging interface)
becomes `Except.error ()`.
-/

namespace Parler

/-- Association list lookup, the embedding of a Python dict read `d[k]`;
`none` plays the role of a `KeyError`. -/
def alookup {κ β : Type} [DecidableEq κ] : List (κ × β) → κ → Option β
  | [], _ => none
  | (k, v) :: rest, k0 => if k = k0 then some v else alookup rest k0

/-- Association list update, the embedding of a Python dict write `d[k] = v`:
replaces the binding in place when the key is present, appends otherwise. -/
def aput {κ β : Type} [DecidableEq κ] : List (κ × β) → κ → β → List (κ × β)
  | [], k0, v0 => [(k0, v0)]
  | (k, v) :: rest, k0, v0 =>
    if k = k0 then (k0, v0) :: rest else (k, v) :: aput rest k0 v0

/-- The tuple returned by `TranslatedFieldsModel._get_field_values`
(models.py line 495): all column attributes of a translation row in a fixed
order — `id`, `language_code`, `master_id`, then the translated field
values (an association list from field name to value). -/
abbrev FieldValues := Option Nat × String × Option Nat × List (String × String)

/-- An in-memory `TranslatedFieldsModel` instance (models.py line 429):
the per-language companion row object.  `original_values` is the
`_original_values` snapshot taken in `__init__` (line 444) and re-taken in
`save_base` (line 472). -/
structure TranslatedFieldsModel where
  id : Option Nat
  language_code : String
  master_id : Option Nat
  values : List (String × String)
  original_values : FieldValues
deriving DecidableEq

/-- A persisted translation row in the backing store (the columns of the
companion table, without any instance state). -/
structure Row where
  id : Nat
  language_code : String
  master_id : Option Nat
  values : List (String × String)
deriving DecidableEq

/-- An in-memory `TranslatableModel` instance (models.py line 122).
`adding` is Django's `self._state.adding` flag (line 244), `pk` the primary
key, `current_language` the `_current_language` attribute, and
`translations_cache` the `_translations_cache` dict (line 156): language
code to either a translation instance or the negative marker `none`
(Python `None`, line 284). -/
structure TranslatableModel where
  pk : Option Nat
  adding : Bool
  current_language : String
  translations_cache : List (String × Option TranslatedFieldsModel)
deriving DecidableEq

/-- The world outside one model instance: the backing store of translation
rows, the process-wide shared cache (memcached in the source), the
auto-increment counters for primary keys, and a ghost counter of store
writes used to state "persisted exactly once" properties. -/
structure World where
  store : List Row
  sharedCache : List ((Nat × String) × Row)
  nextTransPk : Nat
  nextMasterPk : Nat
  writeCount : Nat
deriving DecidableEq

/-- `TranslatedFieldsModel._get_field_values` (models.py line 495): all
field values in a consistent order. -/
def _get_field_values (t : TranslatedFieldsModel) : FieldValues :=
  (t.id, t.language_code, t.master_id, t.values)

/-- `TranslatedFieldsModel.is_modified` (models.py line 448): value-level
comparison of the construction-time snapshot against the current values. -/
def TranslatedFieldsModel.is_modified (t : TranslatedFieldsModel) : Bool :=
  t.original_values != _get_field_values t

/-- `TranslatedFieldsModel.is_empty` (models.py line 452): a structural
property of the companion type — it declares zero translated fields.
`schema` is the list returned by `get_translated_fields` (line 499). -/
def is_empty (schema : List String) : Bool :=
  schema.length == 0

/-- `TranslatedFieldsModel.__init__` as invoked by the auto-create branch
(models.py lines 269-272): a fresh unsaved instance with Django's per-field
defaults (the empty string) and the `_original_values` snapshot taken
immediately (line 444).  `master = self` sets `master_id` to the owner's
current primary key, which may still be `none`. -/
def TranslatedFieldsModel.init (schema : List String) (lc : String)
    (master : Option Nat) : TranslatedFieldsModel :=
  { id := none
    language_code := lc
    master_id := master
    values := schema.map (fun f => (f, ""))
    original_values := (none, lc, master, schema.map (fun f => (f, ""))) }

/-- Loading a stored row into a `TranslatedFieldsModel` instance: Django's
`__init__` runs on the column values, so the snapshot equals them and
`is_modified` starts out false. -/
def Row.load (r : Row) : TranslatedFieldsModel :=
  { id := some r.id
    language_code := r.language_code
    master_id := r.master_id
    values := r.values
    original_values := (some r.id, r.language_code, r.master_id, r.values) }

/-- Modelled from the spec: `parler.cache.get_cached_translation` (imported
at models.py line 20, called at line 246; the module itself is not under
`src/`).  Shared-cache get, keyed by (record identity, language code);
an unsaved owner has no key, and a hit rebuilds an instance from the
serialized snapshot. -/
def get_cached_translation (w : World) (self : TranslatableModel)
    (lc : String) : Option TranslatedFieldsModel :=
  match self.pk with
  | some m => (alookup w.sharedCache (m, lc)).map Row.load
  | none => none

/-- Modelled from the spec: `parler.cache._cache_translation` (called at
models.py lines 260, 318 and 473).  Set-with-expiry of the serialized
snapshot under (owner identity, language code); expiry is not modelled.
An instance without a persisted identity of its own or of its owner cannot
be keyed and is not stored. -/
def _cache_translation (w : World) (t : TranslatedFieldsModel) : World :=
  match t.id, t.master_id with
  | some i, some m =>
    { w with sharedCache := aput w.sharedCache (m, t.language_code)
                              ⟨i, t.language_code, some m, t.values⟩ }
  | _, _ => w

/-- Modelled from the spec: `parler.cache._delete_cached_translations`
(called at models.py line 328).  Evicts the shared-cache entries of every
language of the given record. -/
def _delete_cached_translations (w : World) (self : TranslatableModel) : World :=
  match self.pk with
  | some m => { w with sharedCache := w.sharedCache.filter (fun e => e.1.1 ≠ m) }
  | none => w

/-- The backing-store query `accessor.get(language_code=language_code)`
(models.py line 255): the unique row of the owner for that language. -/
def db_get_translation (w : World) (pk : Option Nat) (lc : String) : Option Row :=
  w.store.find? (fun r => r.master_id == pk && r.language_code == lc)

/-- The `if not language_code: language_code = self._current_language`
defaulting of models.py line 230: Python treats both `None` and the empty
string as falsy. -/
def resolve_lang (self : TranslatableModel) (language_code : Option String) : String :=
  match language_code with
  | none => self.current_language
  | some l => if l = "" then self.current_language else l

/-- Step 3 of `_get_translated_model` (models.py lines 266-275): when
`auto_create` is set, build a fresh unsaved instance, put it in the
instance cache (not in the shared cache) and return it; otherwise report a
miss. -/
def _resolve_auto (schema : List String) (w : World) (self : TranslatableModel)
    (lc : String) (auto_create : Bool) :
    Option TranslatedFieldsModel × TranslatableModel × World :=
  if auto_create then
    let t := TranslatedFieldsModel.init schema lc self.pk
    (some t,
     { self with translations_cache := aput self.translations_cache lc (some t) },
     w)
  else (none, self, w)

/-- Steps 1-3 of `_get_translated_model` (models.py lines 233-275): the
instance cache (a `none` entry is the negative marker and falls through to
step 3), then — only for an owner that is not in the `adding` state — the
shared cache and the backing store, then the auto-create step.  A store hit
populates both the instance cache and the shared cache (lines 259-260). -/
def _resolve_local (schema : List String) (w : World) (self : TranslatableModel)
    (lc : String) (auto_create : Bool) :
    Option TranslatedFieldsModel × TranslatableModel × World :=
  match alookup self.translations_cache lc with
  | some (some t) => (some t, self, w)
  | some none => _resolve_auto schema w self lc auto_create
  | none =>
    if self.adding then _resolve_auto schema w self lc auto_create
    else
      match get_cached_translation w self lc with
      | some t =>
        (some t,
         { self with translations_cache := aput self.translations_cache lc (some t) },
         w)
      | none =>
        match db_get_translation w self.pk lc with
        | some r =>
          (some (Row.load r),
           { self with translations_cache := aput self.translations_cache lc
                                               (some (Row.load r)) },
           _cache_translation w (Row.load r))
        | none => _resolve_auto schema w self lc auto_create

/-- `TranslatableModel._get_translated_model` (models.py lines 223-294),
for a model whose translation schema is configured (the
`ImproperlyConfigured` guard of lines 227-228 is assumed satisfied).
After steps 1-3 miss, the fallback step (lines 277-288) runs only when
`use_fallback` is set and the configured fallback of the requested language
differs from it: it writes the negative marker into the instance cache and
re-resolves the fallback language; the recursive call of line 286 passes
`use_fallback=False`, so it is exactly steps 1-3 again followed by the
failure of line 291.  `cfg` is the fallback map of the language settings
(`get_language_settings(code)['fallback']`); a fallback equal to its code
means no fallback. -/
def _get_translated_model (cfg : String → String) (schema : List String)
    (w : World) (self : TranslatableModel) (language_code : Option String)
    (use_fallback auto_create : Bool) :
    Except Unit TranslatedFieldsModel × TranslatableModel × World :=
  let lc := resolve_lang self language_code
  match _resolve_local schema w self lc auto_create with
  | (some t, s, w1) => (.ok t, s, w1)
  | (none, s, w1) =>
    if use_fallback && (cfg lc != lc) then
      let s1 : TranslatableModel :=
        { s with translations_cache := aput s.translations_cache lc none }
      let lcF := if cfg lc = "" then s1.current_language else cfg lc
      match _resolve_local schema w1 s1 lcF auto_create with
      | (some t, s2, w2) => (.ok t, s2, w2)
      | (none, s2, w2) => (.error (), s2, w2)
    else (.error (), s, w1)

/-- `TranslatableModel.has_translation` (models.py lines 194-213): answer
from the instance cache when an entry (also the negative marker) exists,
otherwise a non-fallback non-creating resolve, converting success and
`DoesNotExist` to a boolean.  Only `None` (not the empty string) defaults
to the current language here (line 199). -/
def has_translation (cfg : String → String) (schema : List String)
    (w : World) (self : TranslatableModel) (language_code : Option String) :
    Bool × TranslatableModel × World :=
  let lc := match language_code with
    | none => self.current_language
    | some l => l
  match alookup self.translations_cache lc with
  | some o => (o.isSome, self, w)
  | none =>
    let r := _get_translated_model cfg schema w self (some lc) false false
    ((match r.1 with | .ok _ => true | .error _ => false), r.2.1, r.2.2)

/-- `TranslatableModel.get_available_languages` (models.py lines 216-220):
the language codes of the owner's stored rows, ordered ascending by code;
the instance cache is not consulted. -/
def get_available_languages (w : World) (self : TranslatableModel) : List String :=
  List.insertionSort (· ≤ ·)
    ((w.store.filter (fun r => r.master_id == self.pk)).map Row.language_code)

/-- `TranslatedFieldsModel.save_base` (models.py lines 460-473), signals
omitted (external collaborators): write the row to the store (an insert
assigning the next primary key when `pk` is `None`, an update otherwise),
re-take the `_original_values` snapshot, refresh the shared cache.  The
ghost `writeCount` counts the store writes. -/
def TranslatedFieldsModel.save_base (w : World) (t : TranslatedFieldsModel) :
    TranslatedFieldsModel × World :=
  match t.id with
  | some i =>
    let row : Row := ⟨i, t.language_code, t.master_id, t.values⟩
    let t1 := { t with original_values := _get_field_values t }
    let w1 := { w with
      store := w.store.map (fun r => if r.id == i then row else r)
      writeCount := w.writeCount + 1 }
    (t1, _cache_translation w1 t1)
  | none =>
    let i := w.nextTransPk
    let t1 := { t with id := some i }
    let t2 := { t1 with original_values := _get_field_values t1 }
    let w1 := { w with
      store := w.store ++ [⟨i, t.language_code, t.master_id, t.values⟩]
      nextTransPk := i + 1
      writeCount := w.writeCount + 1 }
    (t2, _cache_translation w1 t2)

/-- The persistence condition of `save_translation` (models.py line 346):
`translation.is_modified or (translation.is_empty and not translation.pk)`.
Primary keys are positive in this embedding, so Python's falsiness of the
key is `Option.none`. -/
def needs_save (schema : List String) (t : TranslatedFieldsModel) : Bool :=
  t.is_modified || (is_empty schema && t.id == none)

/-- `TranslatableModel.save_translation` (models.py lines 342-350): persist
iff modified, or empty and not yet persisted; bind the owner first when the
owner reference is unset (`not translation.master_id`, line 347). -/
def save_translation (schema : List String) (w : World)
    (self : TranslatableModel) (t : TranslatedFieldsModel) :
    TranslatedFieldsModel × World :=
  if needs_save schema t then
    let t1 := if t.master_id == none then { t with master_id := self.pk } else t
    TranslatedFieldsModel.save_base w t1
  else (t, w)

/-- The iteration of `TranslatableModel.save_translations` (models.py
lines 332-339) over the instance cache: fallback markers are skipped, and
every cached instance is saved in place (Python mutates the object held by
the dict, so the updated instance stays in the cache). -/
def save_translations_go (schema : List String) (self : TranslatableModel) :
    List (String × Option TranslatedFieldsModel) → World →
    List (String × Option TranslatedFieldsModel) × World
  | [], w => ([], w)
  | (l, none) :: rest, w =>
    let (rest1, w1) := save_translations_go schema self rest w
    ((l, none) :: rest1, w1)
  | (l, some t) :: rest, w =>
    let (t1, w1) := save_translation schema w self t
    let (rest1, w2) := save_translations_go schema self rest w1
    ((l, some t1) :: rest1, w2)

/-- `TranslatableModel.save_translations` (models.py lines 332-339). -/
def save_translations (schema : List String) (w : World)
    (self : TranslatableModel) : TranslatableModel × World :=
  ({ self with translations_cache := (save_translations_go schema self self.translations_cache w).1 },
   (save_translations_go schema self self.translations_cache w).2)

/-- `TranslatableModel.save` (models.py lines 322-324): Django's own
`Model.save` (an external collaborator) persists the base row — assigning a
fresh primary key to an unsaved record and clearing the `adding` state —
then `save_translations` runs. -/
def TranslatableModel.save (schema : List String) (w : World)
    (self : TranslatableModel) : TranslatableModel × World :=
  match self.pk with
  | none =>
    save_translations schema { w with nextMasterPk := w.nextMasterPk + 1 }
      { self with pk := some w.nextMasterPk, adding := false }
  | some _ =>
    save_translations schema w { self with adding := false }

/-- `TranslatableModel.delete` (models.py lines 327-329): evict the shared
cache entries of every language of the record, then Django's own
`Model.delete` (an external collaborator) cascade-deletes the stored
translation rows and clears the instance's primary key. -/
def TranslatableModel.delete (w : World) (self : TranslatableModel) :
    TranslatableModel × World :=
  let w1 := _delete_cached_translations w self
  match self.pk with
  | some m =>
    ({ self with pk := none },
     { w1 with store := w1.store.filter (fun r => r.master_id != some m) })
  | none => ({ self with pk := none }, w1)

/-- Modelled from the spec: the proxy attribute write path
(`TranslatedFieldDescriptor.__set__` of `parler.fields`, not under `src/`):
a write of a translated field resolves with `autoCreate=True` for the
current language and assigns the attribute on the returned instance, which
Python mutates in place inside the instance cache. -/
def set_translated_field (cfg : String → String) (schema : List String)
    (w : World) (self : TranslatableModel) (field value : String) :
    TranslatableModel × World :=
  match _get_translated_model cfg schema w self none false true with
  | (.ok t, s, w1) =>
    let t1 := { t with values := aput t.values field value }
    ({ s with translations_cache := aput s.translations_cache
                                      (resolve_lang self none) (some t1) }, w1)
  | (.error _, s, w1) => (s, w1)

/-- Decidable well-formedness of an instance cache: every cached instance
sits under its own language code. -/
def cacheWF (c : List (String × Option TranslatedFieldsModel)) : Bool :=
  c.all (fun e => match e.2 with
    | some t => t.language_code == e.1
    | none => true)

/-- Decidable well-formedness of the shared cache: every entry's snapshot
carries the language code of its key. -/
def sharedWF (w : World) : Bool :=
  w.sharedCache.all (fun e => e.2.language_code == e.1.2)

/-- Decidable well-formedness of the store: every row has an owner. -/
def storeWF (w : World) : Bool :=
  w.store.all (fun r => r.master_id.isSome)

/-- The condition of `needs_save` lifted to an instance-cache entry:
a negative marker never needs saving. -/
def entry_needs_save (schema : List String)
    (e : String × Option TranslatedFieldsModel) : Bool :=
  match e.2 with
  | some t => needs_save schema t
  | none => false

instance : DecidableEq (Except Unit TranslatedFieldsModel) := fun a b =>
  match a, b with
  | .ok x, .ok y =>
    if h : x = y then .isTrue (by rw [h])
    else .isFalse (by intro hc; cases hc; exact h rfl)
  | .error _, .error _ => .isTrue (by rfl)
  | .ok _, .error _ => .isFalse (by intro hc; cases hc)
  | .error _, .ok _ => .isFalse (by intro hc; cases hc)

theorem alookup_aput_self {κ β : Type} [DecidableEq κ]
    (l : List (κ × β)) (k : κ) (v : β) : alookup (aput l k v) k = some v := by
  induction l with
  | nil => simp [aput, alookup]
  | cons e rest ih =>
    obtain ⟨a, b⟩ := e
    by_cases h : a = k
    · simp [aput, h, alookup]
    · simp [aput, h, alookup, ih]

theorem alookup_aput_ne {κ β : Type} [DecidableEq κ]
    (l : List (κ × β)) (k k' : κ) (v : β) (h : k ≠ k') :
    alookup (aput l k v) k' = alookup l k' := by
  induction l with
  | nil => simp [aput, alookup, h]
  | cons e rest ih =>
    obtain ⟨a, b⟩ := e
    by_cases ha : a = k
    · subst ha; simp [aput, alookup, h]
    · by_cases ha' : a = k'
      · simp [aput, alookup, ha, ha', Ne.symm h]
      · simp [aput, alookup, ha, ha', ih]

theorem alookup_mem {κ β : Type} [DecidableEq κ]
    (l : List (κ × β)) (k : κ) (v : β) (h : alookup l k = some v) :
    (k, v) ∈ l := by
  induction l with
  | nil => simp [alookup] at h
  | cons e rest ih =>
    obtain ⟨a, b⟩ := e
    by_cases ha : a = k
    · subst ha
      simp [alookup] at h
      subst h
      exact List.mem_cons_self _ _
    · simp [alookup, ha] at h
      exact List.mem_cons_of_mem _ (ih h)

theorem alookup_none {κ β : Type} [DecidableEq κ]
    (l : List (κ × β)) (k : κ) (h : ∀ e ∈ l, e.1 ≠ k) :
    alookup l k = none := by
  induction l with
  | nil => rfl
  | cons e rest ih =>
    obtain ⟨a, b⟩ := e
    have ha : a ≠ k := h (a, b) (List.mem_cons_self _ _)
    simp only [alookup, if_neg ha]
    exact ih (fun e he => h e (List.mem_cons_of_mem _ he))

theorem rl_cache_hit {schema : List String} {w : World} {self : TranslatableModel}
    {lc : String} {ac : Bool} {t : TranslatedFieldsModel}
    (h : alookup self.translations_cache lc = some (some t)) :
    _resolve_local schema w self lc ac = (some t, self, w) := by
  simp [_resolve_local, h]

theorem rl_neg {schema : List String} {w : World} {self : TranslatableModel}
    {lc : String} {ac : Bool}
    (h : alookup self.translations_cache lc = some none) :
    _resolve_local schema w self lc ac = _resolve_auto schema w self lc ac := by
  simp [_resolve_local, h]

theorem rl_miss_adding {schema : List String} {w : World} {self : TranslatableModel}
    {lc : String} {ac : Bool}
    (h : alookup self.translations_cache lc = none) (ha : self.adding = true) :
    _resolve_local schema w self lc ac = _resolve_auto schema w self lc ac := by
  simp [_resolve_local, h, ha]

theorem rl_shared_hit {schema : List String} {w : World} {self : TranslatableModel}
    {lc : String} {ac : Bool} {t : TranslatedFieldsModel}
    (h : alookup self.translations_cache lc = none) (ha : self.adding = false)
    (hs : get_cached_translation w self lc = some t) :
    _resolve_local schema w self lc ac =
      (some t,
       { self with translations_cache := aput self.translations_cache lc (some t) },
       w) := by
  simp [_resolve_local, h, ha, hs]

theorem rl_db_hit {schema : List String} {w : World} {self : TranslatableModel}
    {lc : String} {ac : Bool} {r : Row}
    (h : alookup self.translations_cache lc = none) (ha : self.adding = false)
    (hs : get_cached_translation w self lc = none)
    (hd : db_get_translation w self.pk lc = some r) :
    _resolve_local schema w self lc ac =
      (some (Row.load r),
       { self with translations_cache := aput self.translations_cache lc
                                           (some (Row.load r)) },
       _cache_translation w (Row.load r)) := by
  simp [_resolve_local, h, ha, hs, hd]

theorem rl_all_miss {schema : List String} {w : World} {self : TranslatableModel}
    {lc : String} {ac : Bool}
    (h : alookup self.translations_cache lc = none) (ha : self.adding = false)
    (hs : get_cached_translation w self lc = none)
    (hd : db_get_translation w self.pk lc = none) :
    _resolve_local schema w self lc ac = _resolve_auto schema w self lc ac := by
  simp [_resolve_local, h, ha, hs, hd]

theorem ra_true {schema : List String} {w : World} {self : TranslatableModel}
    {lc : String} :
    _resolve_auto schema w self lc true =
      (some (TranslatedFieldsModel.init schema lc self.pk),
       { self with translations_cache := aput self.translations_cache lc (some (TranslatedFieldsModel.init schema lc self.pk)) },
       w) := rfl

theorem ra_false {schema : List String} {w : World} {self : TranslatableModel}
    {lc : String} :
    _resolve_auto schema w self lc false = (none, self, w) := rfl

theorem ra_world {schema : List String} {self : TranslatableModel}
    {lc : String} {ac : Bool} (w w2 : World) :
    _resolve_auto schema w self lc ac =
      ((_resolve_auto schema w2 self lc ac).1,
       (_resolve_auto schema w2 self lc ac).2.1, w) := by
  cases ac <;> rfl

/-- The outcome shape of steps 1-3: a miss leaves both the instance and the
world untouched and can only happen without `auto_create`; a hit leaves the
returned translation in the instance cache under the requested language and
touches no other attribute of the instance. -/
theorem rl_out (schema : List String) (w : World) (self : TranslatableModel)
    (lc : String) (ac : Bool) :
    (_resolve_local schema w self lc ac = (none, self, w) ∧ ac = false) ∨
    (∃ t s1 w1, _resolve_local schema w self lc ac = (some t, s1, w1) ∧
      s1.pk = self.pk ∧ s1.adding = self.adding ∧
      s1.current_language = self.current_language ∧
      alookup s1.translations_cache lc = some (some t)) := by
  have hauto : ∀ (w' : World),
      (_resolve_auto schema w' self lc ac = (none, self, w') ∧ ac = false) ∨
      (∃ t s1 w1, _resolve_auto schema w' self lc ac = (some t, s1, w1) ∧
        s1.pk = self.pk ∧ s1.adding = self.adding ∧
        s1.current_language = self.current_language ∧
        alookup s1.translations_cache lc = some (some t)) := by
    intro w'
    cases ac with
    | false => exact Or.inl ⟨ra_false, rfl⟩
    | true =>
      exact Or.inr ⟨TranslatedFieldsModel.init schema lc self.pk,
        { self with translations_cache := aput self.translations_cache lc (some (TranslatedFieldsModel.init schema lc self.pk)) },
        w', ra_true, rfl, rfl, rfl, alookup_aput_self _ _ _⟩
  cases h : alookup self.translations_cache lc with
  | some o =>
    cases o with
    | some t => exact Or.inr ⟨t, self, w, rl_cache_hit h, rfl, rfl, rfl, h⟩
    | none => rw [rl_neg h]; exact hauto w
  | none =>
    by_cases ha : self.adding = true
    · rw [rl_miss_adding h ha]; exact hauto w
    · have ha' : self.adding = false := by simpa using ha
      cases hs : get_cached_translation w self lc with
      | some t =>
        refine Or.inr ⟨t, _, w, rl_shared_hit h ha' hs, rfl, rfl, rfl, ?_⟩
        exact alookup_aput_self _ _ _
      | none =>
        cases hd : db_get_translation w self.pk lc with
        | some r =>
          refine Or.inr ⟨Row.load r, _, _, rl_db_hit h ha' hs hd, rfl, rfl, rfl, ?_⟩
          exact alookup_aput_self _ _ _
        | none => rw [rl_all_miss h ha' hs hd]; exact hauto w

/-- Steps 1-3 preserve the `adding` state of the instance. -/
theorem rl_adding_preserved (schema : List String) (w : World)
    (self : TranslatableModel) (lc : String) (ac : Bool) :
    ((_resolve_local schema w self lc ac).2.1).adding = self.adding := by
  rcases rl_out schema w self lc ac with ⟨h, _⟩ | ⟨t, s1, w1, h, _, hadd, _, _⟩ <;>
    rw [h]
  exact hadd

/-- For an instance in the `adding` state, steps 1-3 neither read nor write
the world: the shared cache and store lookups are skipped. -/
theorem rl_adding (schema : List String) {self : TranslatableModel}
    (lc : String) (ac : Bool) (ha : self.adding = true) (w w2 : World) :
    _resolve_local schema w self lc ac =
      ((_resolve_local schema w2 self lc ac).1,
       (_resolve_local schema w2 self lc ac).2.1, w) := by
  cases h : alookup self.translations_cache lc with
  | some o =>
    cases o with
    | some t => rw [rl_cache_hit h, rl_cache_hit h]
    | none => rw [rl_neg h, rl_neg h]; exact ra_world w w2
  | none =>
    rw [rl_miss_adding h ha, rl_miss_adding h ha]
    exact ra_world w w2

/-- A shared-cache hit comes from an entry of the shared cache keyed by the
owner's identity and the requested language. -/
theorem gct_some {w : World} {self : TranslatableModel} {lc : String}
    {t : TranslatedFieldsModel} (h : get_cached_translation w self lc = some t) :
    ∃ m r, self.pk = some m ∧ alookup w.sharedCache (m, lc) = some r ∧
      t = Row.load r := by
  cases hpk : self.pk with
  | none => simp [get_cached_translation, hpk] at h
  | some m =>
    simp only [get_cached_translation, hpk] at h
    cases ho : alookup w.sharedCache (m, lc) with
    | none => rw [ho] at h; simp at h
    | some r =>
      rw [ho] at h
      exact ⟨m, r, rfl, ho, (Option.some.inj h).symm⟩

/-- Under well-formed caches, steps 1-3 only return a translation carrying
the requested language code. -/
theorem rl_lang {schema : List String} {w : World} {self : TranslatableModel}
    {lc : String} {ac : Bool} {t : TranslatedFieldsModel}
    (hcwf : cacheWF self.translations_cache = true) (hswf : sharedWF w = true)
    (h : (_resolve_local schema w self lc ac).1 = some t) :
    t.language_code = lc := by
  have hauto : ∀ (w' : World), (_resolve_auto schema w' self lc ac).1 = some t →
      t.language_code = lc := by
    intro w' h'
    cases ac with
    | false => simp [ra_false] at h'
    | true =>
      rw [ra_true] at h'
      simp only [Option.some.injEq] at h'
      rw [← h']
      rfl
  cases hc : alookup self.translations_cache lc with
  | some o =>
    cases o with
    | some t' =>
      rw [rl_cache_hit hc] at h
      simp only [Option.some.injEq] at h
      subst h
      have hm := alookup_mem _ _ _ hc
      have := List.all_eq_true.mp hcwf _ hm
      simpa using this
    | none => rw [rl_neg hc] at h; exact hauto w h
  | none =>
    cases ha : self.adding with
    | true => rw [rl_miss_adding hc ha] at h; exact hauto w h
    | false =>
      cases hs : get_cached_translation w self lc with
      | some t' =>
        rw [rl_shared_hit hc ha hs] at h
        simp only [Option.some.injEq] at h
        subst h
        obtain ⟨m, r, hpk, hsl, ht⟩ := gct_some hs
        have hm := alookup_mem _ _ _ hsl
        have := List.all_eq_true.mp hswf _ hm
        rw [ht]
        simpa [Row.load] using this
      | none =>
        cases hd : db_get_translation w self.pk lc with
        | some r =>
          rw [rl_db_hit hc ha hs hd] at h
          simp only [Option.some.injEq] at h
          subst h
          have := List.find?_some hd
          simp only [Bool.and_eq_true, beq_iff_eq] at this
          exact this.2
        | none => rw [rl_all_miss hc ha hs hd] at h; exact hauto w h

/-- Bridging lemma: a miss of steps 1-3 under a cleared fallback flag is
the failure branch. -/
theorem gtm_error (cfg : String → String) (schema : List String) (w : World)
    (self : TranslatableModel) (lcm : Option String) (lc : String) (ac : Bool)
    (s : TranslatableModel) (w1 : World)
    (hlc : resolve_lang self lcm = lc)
    (h : _resolve_local schema w self lc ac = (none, s, w1)) :
    _get_translated_model cfg schema w self lcm false ac = (.error (), s, w1) := by
  simp [_get_translated_model, hlc, h]

/-- Bridging lemma: a hit of steps 1-3 is returned directly, whatever the
flags. -/
theorem gtm_ok (cfg : String → String) (schema : List String) (w : World)
    (self : TranslatableModel) (lcm : Option String) (lc : String)
    (uf ac : Bool) (t : TranslatedFieldsModel) (s : TranslatableModel) (w1 : World)
    (hlc : resolve_lang self lcm = lc)
    (h : _resolve_local schema w self lc ac = (some t, s, w1)) :
    _get_translated_model cfg schema w self lcm uf ac = (.ok t, s, w1) := by
  simp [_get_translated_model, hlc, h]

/-- Refreshing the shared cache touches nothing else in the world. -/
theorem cache_translation_frame (w : World) (t : TranslatedFieldsModel) :
    (_cache_translation w t).store = w.store ∧
    (_cache_translation w t).writeCount = w.writeCount ∧
    (_cache_translation w t).nextTransPk = w.nextTransPk ∧
    (_cache_translation w t).nextMasterPk = w.nextMasterPk := by
  unfold _cache_translation
  split <;> exact ⟨rfl, rfl, rfl, rfl⟩

/-- After `save_base` the snapshot is fresh — `is_modified` is false — and
the instance has a persisted identity. -/
theorem save_base_fresh (w : World) (t : TranslatedFieldsModel) :
    ((TranslatedFieldsModel.save_base w t).1).is_modified = false ∧
    ((TranslatedFieldsModel.save_base w t).1).id.isSome = true := by
  cases h : t.id <;>
    simp [TranslatedFieldsModel.save_base, h, TranslatedFieldsModel.is_modified,
      _get_field_values]

/-- `save_base` performs exactly one store write. -/
theorem save_base_writeCount (w : World) (t : TranslatedFieldsModel) :
    ((TranslatedFieldsModel.save_base w t).2).writeCount = w.writeCount + 1 := by
  cases h : t.id with
  | none =>
    simp only [TranslatedFieldsModel.save_base, h]
    rw [(cache_translation_frame _ _).2.1]
  | some i =>
    simp only [TranslatedFieldsModel.save_base, h]
    rw [(cache_translation_frame _ _).2.1]

/-- A translation that `needs_save` has not been persisted after
`save_base` ran on it ever again: `save_base` leaves it clean. -/
theorem needs_save_save_base (schema : List String) (w : World)
    (t : TranslatedFieldsModel) :
    needs_save schema ((TranslatedFieldsModel.save_base w t).1) = false := by
  obtain ⟨hmod, hid⟩ := save_base_fresh w t
  unfold needs_save
  rw [hmod]
  cases hi : ((TranslatedFieldsModel.save_base w t).1).id with
  | none => rw [hi] at hid; simp at hid
  | some i => simp [hi]

/-- `save_base` never changes the owner reference of the instance. -/
theorem save_base_master (w : World) (t : TranslatedFieldsModel) :
    ((TranslatedFieldsModel.save_base w t).1).master_id = t.master_id := by
  cases h : t.id <;> simp [TranslatedFieldsModel.save_base, h]

/-- `save_base` on an instance without a persisted identity inserts a new
row carrying the instance's owner reference and values. -/
theorem save_base_insert (w : World) (t : TranslatedFieldsModel)
    (hid : t.id = none) :
    ((TranslatedFieldsModel.save_base w t).1).master_id = t.master_id ∧
    ((TranslatedFieldsModel.save_base w t).2).store =
      w.store ++ [⟨w.nextTransPk, t.language_code, t.master_id, t.values⟩] := by
  constructor
  · simp [TranslatedFieldsModel.save_base, hid]
  · simp only [TranslatedFieldsModel.save_base, hid]
    rw [(cache_translation_frame _ _).1]

/-- The write counter of `save_translation`: one write iff the persistence
condition holds. -/
theorem save_translation_writeCount (schema : List String) (w : World)
    (self : TranslatableModel) (t : TranslatedFieldsModel) :
    ((save_translation schema w self t).2).writeCount =
      w.writeCount + (if needs_save schema t then 1 else 0) := by
  by_cases h : needs_save schema t = true
  · simp [save_translation, h, save_base_writeCount]
  · simp [save_translation, h]

/-- Without the persistence condition, `save_translation` is a no-op. -/
theorem save_translation_skip (schema : List String) (w : World)
    (self : TranslatableModel) (t : TranslatedFieldsModel)
    (h : needs_save schema t = false) :
    save_translation schema w self t = (t, w) := by
  simp [save_translation, h]

/-- After `save_translation` the instance never satisfies the persistence
condition again (until mutated). -/
theorem needs_save_after (schema : List String) (w : World)
    (self : TranslatableModel) (t : TranslatedFieldsModel) :
    needs_save schema ((save_translation schema w self t).1) = false := by
  by_cases h : needs_save schema t = true
  · simp only [save_translation, h, if_true]
    exact needs_save_save_base schema w _
  · rw [save_translation_skip schema w self t (by simpa using h)]
    simpa using h

/-- Write count of the `save_translations` iteration: one write per cached
entry satisfying the persistence condition. -/
theorem go_writeCount (schema : List String) (self : TranslatableModel)
    (c : List (String × Option TranslatedFieldsModel)) (w : World) :
    ((save_translations_go schema self c w).2).writeCount =
      w.writeCount + c.countP (entry_needs_save schema) := by
  induction c generalizing w with
  | nil => simp [save_translations_go, List.countP_nil]
  | cons e rest ih =>
    obtain ⟨l, o⟩ := e
    cases o with
    | none =>
      simp [save_translations_go, ih, List.countP_cons, entry_needs_save]
    | some t =>
      simp only [save_translations_go, ih, List.countP_cons,
        save_translation_writeCount, entry_needs_save]
      by_cases h : needs_save schema t = true <;> (simp [h]; try omega)

/-- Every instance left in the cache by the `save_translations` iteration
fails the persistence condition. -/
theorem go_clean (schema : List String) (self : TranslatableModel)
    (c : List (String × Option TranslatedFieldsModel)) (w : World) :
    ∀ l t, (l, some t) ∈ (save_translations_go schema self c w).1 →
      needs_save schema t = false := by
  induction c generalizing w with
  | nil => intro l t h; simp [save_translations_go] at h
  | cons e rest ih =>
    obtain ⟨l0, o⟩ := e
    intro l t h
    cases o with
    | none =>
      simp only [save_translations_go, List.mem_cons] at h
      rcases h with h | h
      · cases h
      · exact ih w l t h
    | some t0 =>
      simp only [save_translations_go, List.mem_cons] at h
      rcases h with h | h
      · obtain ⟨h1, h2⟩ := Prod.mk.injEq .. ▸ h
        cases Option.some.inj h2
        exact needs_save_after schema w self t0
      · exact ih _ l t h

/-- On a cache whose every instance fails the persistence condition, the
`save_translations` iteration does nothing. -/
theorem go_id (schema : List String) (self : TranslatableModel)
    (c : List (String × Option TranslatedFieldsModel)) (w : World)
    (h : ∀ l t, (l, some t) ∈ c → needs_save schema t = false) :
    save_translations_go schema self c w = (c, w) := by
  induction c generalizing w with
  | nil => rfl
  | cons e rest ih =>
    obtain ⟨l0, o⟩ := e
    cases o with
    | none =>
      simp only [save_translations_go]
      rw [ih w (fun l t hm => h l t (List.mem_cons_of_mem _ hm))]
    | some t0 =>
      simp only [save_translations_go]
      rw [save_translation_skip schema w self t0 (h l0 t0 (List.mem_cons_self _ _)),
        ih w (fun l t hm => h l t (List.mem_cons_of_mem _ hm))]

/-- On a cache whose every instance fails the persistence condition,
`save_translations` is the identity on the record and the world. -/
theorem save_translations_clean (schema : List String) (w : World)
    (s : TranslatableModel)
    (h : ∀ l t, (l, some t) ∈ s.translations_cache → needs_save schema t = false) :
    save_translations schema w s = (s, w) := by
  unfold save_translations
  rw [go_id schema s s.translations_cache w h]

/-- `TranslatableModel.save` on an already-persisted record only clears the
`adding` state before saving the translations. -/
theorem save_pk_some (schema : List String) (w : World)
    (self : TranslatableModel) (m : Nat) (h : self.pk = some m) :
    TranslatableModel.save schema w self =
      save_translations schema w { self with adding := false } := by
  unfold TranslatableModel.save
  rw [h]

theorem update_adding (s : TranslatableModel) (h : s.adding = false) :
    { s with adding := false } = s := by
  cases s
  rw [← h]

/-- `TranslatableModel.save` always hands `save_translations` a record with
a persisted identity, a cleared `adding` state and an unchanged instance
cache, over a world with an unchanged write counter. -/
theorem save_shape (schema : List String) (w : World) (self : TranslatableModel) :
    ∃ w1 s1, TranslatableModel.save schema w self = save_translations schema w1 s1 ∧
      s1.translations_cache = self.translations_cache ∧ s1.adding = false ∧
      (∃ m, s1.pk = some m) ∧ w1.writeCount = w.writeCount := by
  cases hpk : self.pk with
  | none =>
    exact ⟨{ w with nextMasterPk := w.nextMasterPk + 1 },
      { self with pk := some w.nextMasterPk, adding := false },
      by unfold TranslatableModel.save; rw [hpk], rfl, rfl, ⟨w.nextMasterPk, rfl⟩, rfl⟩
  | some m =>
    exact ⟨w, { self with adding := false },
      by unfold TranslatableModel.save; rw [hpk], rfl, rfl, ⟨m, hpk⟩, rfl⟩

/-- Concrete language settings used by the witnesses and the specified
scenario: English with no fallback, French and German falling back to
English. -/
def demo_cfg : String → String :=
  fun l => if l = "fr" then "en" else if l = "de" then "en" else l

/-- Concrete translation schema with a single translated field. -/
def demo_schema : List String := ["title"]

/-- A freshly constructed, unsaved record with current language `en`. -/
def demo_new : TranslatableModel :=
  { pk := none, adding := true, current_language := "en", translations_cache := [] }

/-- An empty world. -/
def demo_w0 : World :=
  { store := [], sharedCache := [], nextTransPk := 1, nextMasterPk := 1, writeCount := 0 }

/-- C6: `availableLanguages` returns the language codes of the record's
stored translation rows in ascending sorted order, taken directly from the
backing store: membership is exactly the existence of a store row for the
record and that language, the instance cache never influences the answer,
and the result is empty for an unsaved record (over a store whose rows all
have owners). -/
theorem c6_available_languages_sorted_from_store (w : World)
    (self : TranslatableModel) :
    List.Sorted (· ≤ ·) (get_available_languages w self) ∧
    (∀ L : String, L ∈ get_available_languages w self ↔
      ∃ r ∈ w.store, r.master_id = self.pk ∧ r.language_code = L) ∧
    (∀ c, get_available_languages w { self with translations_cache := c } =
      get_available_languages w self) ∧
    (self.pk = none → storeWF w = true → get_available_languages w self = []) := by
  have hmem : ∀ L : String, L ∈ get_available_languages w self ↔
      ∃ r ∈ w.store, r.master_id = self.pk ∧ r.language_code = L := by
    intro L
    unfold get_available_languages
    rw [(List.perm_insertionSort _ _).mem_iff]
    simp only [List.mem_map, List.mem_filter, beq_iff_eq]
    constructor
    · rintro ⟨r, ⟨hr, hm⟩, hl⟩
      exact ⟨r, hr, hm, hl⟩
    · rintro ⟨r, hr, hm, hl⟩
      exact ⟨r, ⟨hr, hm⟩, hl⟩
  refine ⟨List.sorted_insertionSort _ _, hmem, fun c => rfl, ?_⟩
  intro hpk hwf
  rw [List.eq_nil_iff_forall_not_mem]
  intro L hL
  obtain ⟨r, hr, hm, _⟩ := (hmem L).mp hL
  have hsome := List.all_eq_true.mp hwf r hr
  rw [hpk] at hm
  rw [hm] at hsome
  simp at hsome

/-- Witness for C6 on a concrete unsaved record over an empty store. -/
theorem c6_witness :
    get_available_languages demo_w0 demo_new = [] :=
  (c6_available_languages_sorted_from_store demo_w0 demo_new).2.2.2 rfl (by decide)

/-- C2: `save_translation` performs a store write iff the translation is
modified, or empty-schema and not yet persisted; when the owner reference
is unset it is bound to the owner before the write (the inserted row
carries the owner's key); an auto-created empty-schema translation is
persisted exactly once even though `is_modified` is false. -/
theorem c2_save_translation_condition (schema : List String) (w : World)
    (self : TranslatableModel) (t : TranslatedFieldsModel) :
    (((save_translation schema w self t).2).writeCount =
      w.writeCount +
        (if t.is_modified || (is_empty schema && t.id == none) then 1 else 0)) ∧
    (t.is_modified = false → (is_empty schema && t.id == none) = false →
      save_translation schema w self t = (t, w)) ∧
    (t.master_id = none → needs_save schema t = true →
      ((save_translation schema w self t).1).master_id = self.pk) ∧
    (t.master_id = none → t.id = none → needs_save schema t = true →
      ((save_translation schema w self t).2).store =
        w.store ++ [⟨w.nextTransPk, t.language_code, self.pk, t.values⟩]) ∧
    (is_empty schema = true → t.id = none → t.is_modified = false →
      ((save_translation schema w self t).2).writeCount = w.writeCount + 1 ∧
      save_translation schema ((save_translation schema w self t).2) self
          ((save_translation schema w self t).1) =
        ((save_translation schema w self t).1,
         (save_translation schema w self t).2)) := by
  refine ⟨?_, ?_, ?_, ?_, ?_⟩
  · simpa [needs_save] using save_translation_writeCount schema w self t
  · intro h1 h2
    exact save_translation_skip schema w self t (by simp [needs_save, h1, h2])
  · intro hm hns
    have ht1 : (if t.master_id == none then { t with master_id := self.pk } else t) =
        { t with master_id := self.pk } := by
      rw [hm]
      rfl
    simp only [save_translation, hns, if_true, ht1]
    exact save_base_master w { t with master_id := self.pk }
  · intro hm hid hns
    have ht1 : (if t.master_id == none then { t with master_id := self.pk } else t) =
        { t with master_id := self.pk } := by
      rw [hm]
      rfl
    have hins := save_base_insert w { t with master_id := self.pk } hid
    simp only [save_translation, hns, if_true, ht1]
    exact hins.2
  · intro hs hid hmod
    have hns : needs_save schema t = true := by
      simp [needs_save, hs, hid, hmod]
    constructor
    · rw [save_translation_writeCount]
      rw [hns]
      simp
    · exact save_translation_skip schema _ self _ (needs_save_after schema w self t)

/-- Witness for C2: a concrete auto-created translation of an empty schema
is persisted exactly once even though it is unmodified. -/
theorem c2_witness :
    ((save_translation [] demo_w0 { pk := some 1, adding := false, current_language := "en", translations_cache := [] } (TranslatedFieldsModel.init [] "en" (some 1))).2).writeCount = demo_w0.writeCount + 1 ∧
    save_translation []
        ((save_translation [] demo_w0 { pk := some 1, adding := false, current_language := "en", translations_cache := [] } (TranslatedFieldsModel.init [] "en" (some 1))).2)
        { pk := some 1, adding := false, current_language := "en", translations_cache := [] }
        ((save_translation [] demo_w0 { pk := some 1, adding := false, current_language := "en", translations_cache := [] } (TranslatedFieldsModel.init [] "en" (some 1))).1) =
      ((save_translation [] demo_w0 { pk := some 1, adding := false, current_language := "en", translations_cache := [] } (TranslatedFieldsModel.init [] "en" (some 1))).1,
       (save_translation [] demo_w0 { pk := some 1, adding := false, current_language := "en", translations_cache := [] } (TranslatedFieldsModel.init [] "en" (some 1))).2) :=
  (c2_save_translation_condition [] demo_w0 _ _).2.2.2.2 (by decide) (by decide) (by decide)

/-- C3: saving a record twice with no mutation in between writes each
cached translation satisfying the persistence condition exactly once: the
first save performs exactly one store write per such translation, and the
second save is the identity on both the record and the world. -/
theorem c3_save_idempotent (schema : List String) (w : World)
    (self : TranslatableModel) :
    ((TranslatableModel.save schema w self).2).writeCount =
      w.writeCount + self.translations_cache.countP (entry_needs_save schema) ∧
    TranslatableModel.save schema ((TranslatableModel.save schema w self).2)
        ((TranslatableModel.save schema w self).1) =
      ((TranslatableModel.save schema w self).1,
       (TranslatableModel.save schema w self).2) := by
  obtain ⟨w1, s1, heq, hcache, hadd, ⟨m, hpk1⟩, hwc⟩ := save_shape schema w self
  rw [heq]
  constructor
  · have h := go_writeCount schema s1 s1.translations_cache w1
    rw [hwc] at h
    rw [show List.countP (entry_needs_save schema) s1.translations_cache =
          List.countP (entry_needs_save schema) self.translations_cache from
        by rw [hcache]] at h
    exact h
  · rw [save_pk_some schema _ _ m (show ((save_translations schema w1 s1).1).pk = some m from hpk1),
      update_adding _ (show ((save_translations schema w1 s1).1).adding = false from hadd),
      save_translations_clean schema _ _
        (fun l t hm => go_clean schema s1 s1.translations_cache w1 l t hm)]

/-- C4: resolving with auto-create twice in a row without an intervening
save returns the same translation instance both times; the first call
leaves it in the instance cache and the second call returns that cached
entry, changing nothing. -/
theorem c4_auto_create_idempotent (cfg : String → String) (schema : List String)
    (w : World) (self : TranslatableModel) (L : String) (uf : Bool)
    (hL : L ≠ "") (r : Except Unit TranslatedFieldsModel)
    (s1 : TranslatableModel) (w1 : World)
    (h : _get_translated_model cfg schema w self (some L) uf true = (r, s1, w1)) :
    ∃ t, r = .ok t ∧
      _get_translated_model cfg schema w1 s1 (some L) uf true = (.ok t, s1, w1) := by
  have hlc : resolve_lang self (some L) = L := by simp [resolve_lang, hL]
  rcases rl_out schema w self L true with ⟨_, hfalse⟩ | ⟨t, s1', w1', hrl, _, _, _, hcache⟩
  · cases hfalse
  · have hgtm : _get_translated_model cfg schema w self (some L) uf true =
        (.ok t, s1', w1') := by
      simp [_get_translated_model, hlc, hrl]
    rw [hgtm] at h
    simp only [Prod.mk.injEq] at h
    obtain ⟨h1, h2, h3⟩ := h
    subst h2
    subst h3
    refine ⟨t, h1.symm, ?_⟩
    have hlc2 : resolve_lang s1' (some L) = L := by simp [resolve_lang, hL]
    have hrl2 := @rl_cache_hit schema w1' s1' L true t hcache
    simp [_get_translated_model, hlc2, hrl2]

/-- Witness for C4 at a concrete fresh record. -/
theorem c4_witness :
    ∃ t, (_get_translated_model demo_cfg demo_schema demo_w0 demo_new (some "en") false true).1 = .ok t ∧
      _get_translated_model demo_cfg demo_schema
          ((_get_translated_model demo_cfg demo_schema demo_w0 demo_new (some "en") false true).2.2)
          ((_get_translated_model demo_cfg demo_schema demo_w0 demo_new (some "en") false true).2.1)
          (some "en") false true =
        (.ok t,
         (_get_translated_model demo_cfg demo_schema demo_w0 demo_new (some "en") false true).2.1,
         (_get_translated_model demo_cfg demo_schema demo_w0 demo_new (some "en") false true).2.2) :=
  c4_auto_create_idempotent demo_cfg demo_schema demo_w0 demo_new "en" false
    (by decide) _ _ _ rfl

/-- C9: after an auto-creating resolve, `has_translation` answers true from
the instance cache — even though no row exists in any store, since the
statement holds for every world, including an empty one — and leaves the
state untouched. -/
theorem c9_has_translation_sees_unsaved (cfg : String → String)
    (schema : List String) (w : World) (self : TranslatableModel)
    (L : String) (uf : Bool) (hL : L ≠ "") :
    has_translation cfg schema
        ((_get_translated_model cfg schema w self (some L) uf true).2.2)
        ((_get_translated_model cfg schema w self (some L) uf true).2.1)
        (some L) =
      (true,
       (_get_translated_model cfg schema w self (some L) uf true).2.1,
       (_get_translated_model cfg schema w self (some L) uf true).2.2) := by
  have hlc : resolve_lang self (some L) = L := by simp [resolve_lang, hL]
  rcases rl_out schema w self L true with ⟨_, hfalse⟩ | ⟨t, s1, w1, hrl, _, _, _, hcache⟩
  · cases hfalse
  · have hgtm : _get_translated_model cfg schema w self (some L) uf true =
        (.ok t, s1, w1) := by
      simp [_get_translated_model, hlc, hrl]
    rw [hgtm]
    simp [has_translation, hcache]

/-- Witness for C9 at a concrete fresh record over the empty store. -/
theorem c9_witness :
    has_translation demo_cfg demo_schema
        ((_get_translated_model demo_cfg demo_schema demo_w0 demo_new (some "de") false true).2.2)
        ((_get_translated_model demo_cfg demo_schema demo_w0 demo_new (some "de") false true).2.1)
        (some "de") =
      (true,
       (_get_translated_model demo_cfg demo_schema demo_w0 demo_new (some "de") false true).2.1,
       (_get_translated_model demo_cfg demo_schema demo_w0 demo_new (some "de") false true).2.2) :=
  c9_has_translation_sees_unsaved demo_cfg demo_schema demo_w0 demo_new "de" false
    (by decide)

/-- C10: with auto-create set, resolution always succeeds with a
translation for the requested language itself, whatever the fallback flag:
the auto-create step precedes the fallback step, so neither the fallback
branch nor the failure branch is reachable. -/
theorem c10_auto_create_total (cfg : String → String) (schema : List String)
    (w : World) (self : TranslatableModel) (L : String) (uf : Bool)
    (hL : L ≠ "") (hcwf : cacheWF self.translations_cache = true)
    (hswf : sharedWF w = true) :
    ∃ t s1 w1,
      _get_translated_model cfg schema w self (some L) uf true = (.ok t, s1, w1) ∧
      t.language_code = L := by
  have hlc : resolve_lang self (some L) = L := by simp [resolve_lang, hL]
  rcases rl_out schema w self L true with ⟨_, hfalse⟩ | ⟨t, s1, w1, hrl, _, _, _, _⟩
  · cases hfalse
  · refine ⟨t, s1, w1, by simp [_get_translated_model, hlc, hrl], ?_⟩
    exact rl_lang hcwf hswf (by rw [hrl])

/-- Witness for C10 at a concrete fresh record, with the fallback flag
set. -/
theorem c10_witness :
    ∃ t s1 w1,
      _get_translated_model demo_cfg demo_schema demo_w0 demo_new (some "de") true true =
        (.ok t, s1, w1) ∧ t.language_code = "de" :=
  c10_auto_create_total demo_cfg demo_schema demo_w0 demo_new "de" true
    (by decide) (by decide) (by decide)

/-- A stored English translation row of record 1. -/
def demo_row : Row := ⟨1, "en", some 1, [("title", "Hi")]⟩

/-- Record 1 loaded from the store with its English translation cached. -/
def demo_loaded : TranslatableModel :=
  { pk := some 1, adding := false, current_language := "en",
    translations_cache := [("en", some (Row.load demo_row))] }

/-- The world holding record 1's English row in store and shared cache. -/
def demo_wrow : World :=
  { store := [demo_row], sharedCache := [((1, "en"), demo_row)],
    nextTransPk := 2, nextMasterPk := 2, writeCount := 0 }

/-- The world holding record 1's English row in the store only. -/
def demo_wstore : World :=
  { store := [demo_row], sharedCache := [],
    nextTransPk := 2, nextMasterPk := 2, writeCount := 0 }

/-- Record 1 loaded with an empty instance cache. -/
def demo_fresh : TranslatableModel :=
  { pk := some 1, adding := false, current_language := "en",
    translations_cache := [] }

/-- Record 1 with a negative marker cached for German. -/
def marker_rec : TranslatableModel :=
  { pk := some 1, adding := false, current_language := "en",
    translations_cache := [("de", none)] }

/-- The title carried by a resolution result, `none` on failure. -/
def result_value (r : Except Unit TranslatedFieldsModel) (f : String) :
    Option String :=
  match r with
  | .ok t => alookup t.values f
  | .error _ => none

/-- The language carried by a resolution result, `none` on failure. -/
def result_lang (r : Except Unit TranslatedFieldsModel) : Option String :=
  match r with
  | .ok t => some t.language_code
  | .error _ => none

/-- C1: when the requested language is absent everywhere but its distinct
configured fallback has a stored row, the fallback resolve returns the
fallback row's translation (a single hop: the recursive pass runs without
fallback), records the negative marker for the requested language in the
instance cache, and a subsequent non-fallback resolve of the requested
language fails without changing any state — the negative marker does not
satisfy it. -/
theorem c1_fallback_negative_marker (cfg : String → String) (schema : List String)
    (w : World) (self : TranslatableModel) (L F : String) (m : Nat) (rowF : Row)
    (hpk : self.pk = some m) (hadd : self.adding = false)
    (hL : L ≠ "") (hF : F ≠ "") (hcfg : cfg L = F) (hne : F ≠ L)
    (hc1 : alookup self.translations_cache L = none)
    (hc2 : alookup self.translations_cache F = none)
    (hs1 : alookup w.sharedCache (m, L) = none)
    (hs2 : alookup w.sharedCache (m, F) = none)
    (hd1 : db_get_translation w self.pk L = none)
    (hd2 : db_get_translation w self.pk F = some rowF) :
    rowF.language_code = F ∧
    _get_translated_model cfg schema w self (some L) true false =
      (.ok (Row.load rowF),
       { self with translations_cache := aput (aput self.translations_cache L none) F (some (Row.load rowF)) },
       _cache_translation w (Row.load rowF)) ∧
    alookup (aput (aput self.translations_cache L none) F (some (Row.load rowF))) L = some none ∧
    _get_translated_model cfg schema (_cache_translation w (Row.load rowF))
        { self with translations_cache := aput (aput self.translations_cache L none) F (some (Row.load rowF)) }
        (some L) false false =
      (.error (),
       { self with translations_cache := aput (aput self.translations_cache L none) F (some (Row.load rowF)) },
       _cache_translation w (Row.load rowF)) := by
  have hlangF : rowF.language_code = F := by
    have h := List.find?_some hd2
    simp only [Bool.and_eq_true, beq_iff_eq] at h
    exact h.2
  have hlc : resolve_lang self (some L) = L := by simp [resolve_lang, hL]
  have hg1 : get_cached_translation w self L = none := by
    simp [get_cached_translation, hpk, hs1]
  have hrl1 : _resolve_local schema w self L false = (none, self, w) := by
    rw [rl_all_miss hc1 hadd hg1 hd1, ra_false]
  have hc2' : alookup (aput self.translations_cache L none) F = none := by
    rw [alookup_aput_ne _ _ _ _ (Ne.symm hne)]
    exact hc2
  have hg2 : get_cached_translation w
      { self with translations_cache := aput self.translations_cache L none } F = none := by
    simp [get_cached_translation, hpk, hs2]
  have hrl2 : _resolve_local schema w
      { self with translations_cache := aput self.translations_cache L none } F false =
      (some (Row.load rowF),
       { self with translations_cache := aput (aput self.translations_cache L none) F (some (Row.load rowF)) },
       _cache_translation w (Row.load rowF)) := by
    rw [@rl_db_hit schema w { self with translations_cache := aput self.translations_cache L none }
      F false rowF hc2' hadd hg2 hd2]
  have hmark : alookup (aput (aput self.translations_cache L none) F (some (Row.load rowF))) L = some none := by
    rw [alookup_aput_ne _ _ _ _ hne, alookup_aput_self]
  refine ⟨hlangF, ?_, hmark, ?_⟩
  · simp [_get_translated_model, hlc, hrl1, hcfg, hne, hF, hrl2]
  · have hrl3 : _resolve_local schema (_cache_translation w (Row.load rowF))
        { self with translations_cache := aput (aput self.translations_cache L none) F (some (Row.load rowF)) }
        L false =
        (none,
         { self with translations_cache := aput (aput self.translations_cache L none) F (some (Row.load rowF)) },
         _cache_translation w (Row.load rowF)) := by
      rw [rl_neg hmark, ra_false]
    have hlc2 : resolve_lang
        { self with translations_cache := aput (aput self.translations_cache L none) F (some (Row.load rowF)) }
        (some L) = L := by
      simp [resolve_lang, hL]
    simp [_get_translated_model, hlc2, hrl3]

/-- Witness for C1: German falls back to English on record 1, whose only
stored row is English. -/
theorem c1_witness :
    demo_row.language_code = "en" ∧
    _get_translated_model demo_cfg demo_schema demo_wstore demo_fresh (some "de") true false =
      (.ok (Row.load demo_row),
       { demo_fresh with translations_cache := aput (aput demo_fresh.translations_cache "de" none) "en" (some (Row.load demo_row)) },
       _cache_translation demo_wstore (Row.load demo_row)) ∧
    alookup (aput (aput demo_fresh.translations_cache "de" none) "en" (some (Row.load demo_row))) "de" = some none ∧
    _get_translated_model demo_cfg demo_schema (_cache_translation demo_wstore (Row.load demo_row))
        { demo_fresh with translations_cache := aput (aput demo_fresh.translations_cache "de" none) "en" (some (Row.load demo_row)) }
        (some "de") false false =
      (.error (),
       { demo_fresh with translations_cache := aput (aput demo_fresh.translations_cache "de" none) "en" (some (Row.load demo_row)) },
       _cache_translation demo_wstore (Row.load demo_row)) :=
  c1_fallback_negative_marker demo_cfg demo_schema demo_wstore demo_fresh "de" "en" 1
    demo_row rfl rfl (by decide) (by decide) (by decide) (by decide) rfl rfl rfl rfl
    (by decide) (by decide)

/-- Counterexample to C5 as stated: deleting record 1 does evict its
shared-cache entries and its store rows, but its instance translation
cache is NOT cleared — `delete` (models.py lines 327-329) never touches
`_translations_cache` — so a subsequent resolve for the cached language
`en` succeeds from the instance cache instead of missing both caches and
querying the (now empty) store. -/
theorem c5_counterexample :
    ((TranslatableModel.delete demo_wrow demo_loaded).1).translations_cache =
      [("en", some (Row.load demo_row))] ∧
    ((TranslatableModel.delete demo_wrow demo_loaded).2).store = [] ∧
    ((TranslatableModel.delete demo_wrow demo_loaded).2).sharedCache = [] ∧
    (_get_translated_model demo_cfg demo_schema
        ((TranslatableModel.delete demo_wrow demo_loaded).2)
        ((TranslatableModel.delete demo_wrow demo_loaded).1)
        (some "en") false false).1 =
      .ok (Row.load demo_row) := by
  decide

/-- C5 amended: deleting a record evicts the shared-cache entries for all
of the record's languages and clears its primary key, while the instance
translation cache is left untouched; a subsequent resolve for a language
that has no instance-cache entry misses the shared cache and queries the
store, which returns nothing, so the resolve fails without changing any
state. -/
theorem c5_delete_evicts_shared_cache (cfg : String → String)
    (schema : List String) (w : World) (self : TranslatableModel) (m : Nat)
    (hpk : self.pk = some m) (hwf : storeWF w = true) :
    ((TranslatableModel.delete w self).1).translations_cache =
      self.translations_cache ∧
    ((TranslatableModel.delete w self).1).pk = none ∧
    (∀ l, alookup ((TranslatableModel.delete w self).2).sharedCache (m, l) = none) ∧
    ((TranslatableModel.delete w self).2).store =
      w.store.filter (fun r => r.master_id != some m) ∧
    (∀ L, L ≠ "" → alookup self.translations_cache L = none →
      _get_translated_model cfg schema ((TranslatableModel.delete w self).2)
          ((TranslatableModel.delete w self).1) (some L) false false =
        (.error (), (TranslatableModel.delete w self).1,
         (TranslatableModel.delete w self).2)) := by
  have hdel : TranslatableModel.delete w self =
      ({ self with pk := none },
       { w with sharedCache := w.sharedCache.filter (fun e => e.1.1 ≠ m),
                store := w.store.filter (fun r => r.master_id != some m) }) := by
    simp [TranslatableModel.delete, _delete_cached_translations, hpk]
  rw [hdel]
  refine ⟨rfl, rfl, ?_, rfl, ?_⟩
  · intro l
    apply alookup_none
    intro e he
    have hne := (List.mem_filter.mp he).2
    simp only [ne_eq, decide_not, Bool.not_eq_true', decide_eq_false_iff_not] at hne
    intro hcontra
    exact hne (congrArg Prod.fst hcontra)
  · intro L hLne hcache
    have hlc : resolve_lang ({ self with pk := none } : TranslatableModel) (some L) = L := by
      simp [resolve_lang, hLne]
    by_cases ha : self.adding = true
    · have hrl : _resolve_local schema
          { w with sharedCache := w.sharedCache.filter (fun e => e.1.1 ≠ m),
                   store := w.store.filter (fun r => r.master_id != some m) }
          { self with pk := none } L false =
          (none, { self with pk := none },
           { w with sharedCache := w.sharedCache.filter (fun e => e.1.1 ≠ m),
                    store := w.store.filter (fun r => r.master_id != some m) }) := by
        rw [@rl_miss_adding schema
          { w with sharedCache := w.sharedCache.filter (fun e => e.1.1 ≠ m),
                   store := w.store.filter (fun r => r.master_id != some m) }
          { self with pk := none } L false hcache ha, ra_false]
      exact gtm_error cfg schema _ _ (some L) L false _ _ hlc hrl
    · have ha' : self.adding = false := by simpa using ha
      have hg : get_cached_translation
          { w with sharedCache := w.sharedCache.filter (fun e => e.1.1 ≠ m),
                   store := w.store.filter (fun r => r.master_id != some m) }
          { self with pk := none } L = none := rfl
      have hd : db_get_translation
          { w with sharedCache := w.sharedCache.filter (fun e => e.1.1 ≠ m),
                   store := w.store.filter (fun r => r.master_id != some m) }
          (none : Option Nat) L = none := by
        unfold db_get_translation
        rw [List.find?_eq_none]
        intro r hr
        have hrs : r ∈ w.store := (List.mem_filter.mp hr).1
        have hsome := List.all_eq_true.mp hwf r hrs
        cases hmid : r.master_id with
        | none => rw [hmid] at hsome; simp at hsome
        | some k => simp [hmid]
      have hrl : _resolve_local schema
          { w with sharedCache := w.sharedCache.filter (fun e => e.1.1 ≠ m),
                   store := w.store.filter (fun r => r.master_id != some m) }
          { self with pk := none } L false =
          (none, { self with pk := none },
           { w with sharedCache := w.sharedCache.filter (fun e => e.1.1 ≠ m),
                    store := w.store.filter (fun r => r.master_id != some m) }) := by
        rw [@rl_all_miss schema
          { w with sharedCache := w.sharedCache.filter (fun e => e.1.1 ≠ m),
                   store := w.store.filter (fun r => r.master_id != some m) }
          { self with pk := none } L false hcache ha' hg hd, ra_false]
      exact gtm_error cfg schema _ _ (some L) L false _ _ hlc hrl

/-- Witness for the amended C5 on record 1: the instance cache survives the
delete, and resolving the uncached language `fr` afterwards fails. -/
theorem c5_witness :
    ((TranslatableModel.delete demo_wrow demo_loaded).1).translations_cache =
      demo_loaded.translations_cache ∧
    _get_translated_model demo_cfg demo_schema
        ((TranslatableModel.delete demo_wrow demo_loaded).2)
        ((TranslatableModel.delete demo_wrow demo_loaded).1) (some "fr") false false =
      (.error (), (TranslatableModel.delete demo_wrow demo_loaded).1,
       (TranslatableModel.delete demo_wrow demo_loaded).2) :=
  ⟨(c5_delete_evicts_shared_cache demo_cfg demo_schema demo_wrow demo_loaded 1 rfl
      (by decide)).1,
   (c5_delete_evicts_shared_cache demo_cfg demo_schema demo_wrow demo_loaded 1 rfl
      (by decide)).2.2.2.2 "fr" (by decide) rfl⟩

/-- C7: for a record without a persisted identity the shared cache and the
store are never consulted — resolution returns the world unchanged and its
result does not depend on the world at all; every auto-created translation
is placed only in the instance cache at creation time, with the world — so
in particular the shared cache — untouched, on each of the three paths
that reach the auto-create step (a cached negative marker; a cache miss on
an unsaved record; a clean miss of instance cache, shared cache and store
on a persisted record); and the shared cache gains the entry for a
translation exactly when `save_base` persists it. -/
theorem c7_unsaved_skips_world (cfg : String → String) (schema : List String) :
    (∀ (w w2 : World) (self : TranslatableModel) (lcm : Option String) (uf ac : Bool),
      self.adding = true →
      (_get_translated_model cfg schema w self lcm uf ac).2.2 = w ∧
      (_get_translated_model cfg schema w2 self lcm uf ac).1 =
        (_get_translated_model cfg schema w self lcm uf ac).1 ∧
      (_get_translated_model cfg schema w2 self lcm uf ac).2.1 =
        (_get_translated_model cfg schema w self lcm uf ac).2.1) ∧
    (∀ (w : World) (self : TranslatableModel) (L : String) (uf : Bool),
      L ≠ "" →
      (alookup self.translations_cache L = some none ∨
       (alookup self.translations_cache L = none ∧ self.adding = true) ∨
       (alookup self.translations_cache L = none ∧ self.adding = false ∧
        get_cached_translation w self L = none ∧
        db_get_translation w self.pk L = none)) →
      _get_translated_model cfg schema w self (some L) uf true =
        (.ok (TranslatedFieldsModel.init schema L self.pk),
         { self with translations_cache := aput self.translations_cache L (some (TranslatedFieldsModel.init schema L self.pk)) },
         w)) ∧
    (∀ (w : World) (t : TranslatedFieldsModel) (m : Nat), t.master_id = some m →
      ∃ i, alookup ((TranslatedFieldsModel.save_base w t).2).sharedCache
          (m, t.language_code) = some ⟨i, t.language_code, some m, t.values⟩) := by
  refine ⟨?_, ?_, ?_⟩
  · intro w w2 self lcm uf ac ha
    have e := rl_adding schema (resolve_lang self lcm) ac ha w w2
    rcases h2 : _resolve_local schema w2 self (resolve_lang self lcm) ac with ⟨o, s, wx⟩
    rw [h2] at e
    cases o with
    | some t =>
      have g1 : _get_translated_model cfg schema w self lcm uf ac = (.ok t, s, w) := by
        simp [_get_translated_model, e]
      have g2 : _get_translated_model cfg schema w2 self lcm uf ac = (.ok t, s, wx) := by
        simp [_get_translated_model, h2]
      rw [g1, g2]
      exact ⟨rfl, rfl, rfl⟩
    | none =>
      have hsadd : s.adding = true := by
        have hp := rl_adding_preserved schema w2 self (resolve_lang self lcm) ac
        rw [h2] at hp
        have hp' : s.adding = self.adding := hp
        rw [hp']
        exact ha
      by_cases hf : (uf && (cfg (resolve_lang self lcm) != resolve_lang self lcm)) = true
      · have hs1add : ({ s with translations_cache := aput s.translations_cache (resolve_lang self lcm) none } : TranslatableModel).adding = true := hsadd
        have e2 := rl_adding schema
          (if cfg (resolve_lang self lcm) = "" then s.current_language else cfg (resolve_lang self lcm))
          ac hs1add w wx
        rcases h3 : _resolve_local schema wx
            { s with translations_cache := aput s.translations_cache (resolve_lang self lcm) none }
            (if cfg (resolve_lang self lcm) = "" then s.current_language else cfg (resolve_lang self lcm)) ac
          with ⟨o2, s2, wy⟩
        rw [h3] at e2
        cases o2 with
        | some t2 =>
          have g1 : _get_translated_model cfg schema w self lcm uf ac = (.ok t2, s2, w) := by
            simp [_get_translated_model, e, hf, e2]
          have g2 : _get_translated_model cfg schema w2 self lcm uf ac = (.ok t2, s2, wy) := by
            simp [_get_translated_model, h2, hf, h3]
          rw [g1, g2]
          exact ⟨rfl, rfl, rfl⟩
        | none =>
          have g1 : _get_translated_model cfg schema w self lcm uf ac = (.error (), s2, w) := by
            simp [_get_translated_model, e, hf, e2]
          have g2 : _get_translated_model cfg schema w2 self lcm uf ac = (.error (), s2, wy) := by
            simp [_get_translated_model, h2, hf, h3]
          rw [g1, g2]
          exact ⟨rfl, rfl, rfl⟩
      · have hf' : (uf && (cfg (resolve_lang self lcm) != resolve_lang self lcm)) = false := by
          simpa using hf
        have g1 : _get_translated_model cfg schema w self lcm uf ac = (.error (), s, w) := by
          simp [_get_translated_model, e, hf']
        have g2 : _get_translated_model cfg schema w2 self lcm uf ac = (.error (), s, wx) := by
          simp [_get_translated_model, h2, hf']
        rw [g1, g2]
        exact ⟨rfl, rfl, rfl⟩
  · intro w self L uf hL hcase
    have hlc : resolve_lang self (some L) = L := by simp [resolve_lang, hL]
    have hrl : _resolve_local schema w self L true =
        (some (TranslatedFieldsModel.init schema L self.pk),
         { self with translations_cache := aput self.translations_cache L (some (TranslatedFieldsModel.init schema L self.pk)) },
         w) := by
      rcases hcase with hmarker | ⟨hmiss, hadd⟩ | ⟨hmiss, hadd, hg, hd⟩
      · rw [@rl_neg schema w self L true hmarker, ra_true]
      · rw [rl_miss_adding hmiss hadd, ra_true]
      · rw [rl_all_miss hmiss hadd hg hd, ra_true]
    exact gtm_ok cfg schema w self (some L) L uf true _ _ w hlc hrl
  · intro w t m hm
    cases hid : t.id with
    | some i =>
      refine ⟨i, ?_⟩
      simp only [TranslatedFieldsModel.save_base, hid, _cache_translation, hm]
      exact alookup_aput_self _ _ _
    | none =>
      refine ⟨w.nextTransPk, ?_⟩
      simp only [TranslatedFieldsModel.save_base, hid, _cache_translation, hm]
      exact alookup_aput_self _ _ _

/-- Witness for C7 on concrete inputs: an unsaved record's resolution
leaves the empty world unchanged; auto-creation on a persisted record
after a clean miss of instance cache, shared cache and store, and
auto-creation over a cached negative marker, both store only into the
instance cache; and `save_base` publishes the persisted row to the shared
cache. -/
theorem c7_witness :
    (_get_translated_model demo_cfg demo_schema demo_w0 demo_new none false false).2.2 = demo_w0 ∧
    _get_translated_model demo_cfg demo_schema demo_w0 demo_fresh (some "de") false true =
      (.ok (TranslatedFieldsModel.init demo_schema "de" demo_fresh.pk),
       { demo_fresh with translations_cache := aput demo_fresh.translations_cache "de" (some (TranslatedFieldsModel.init demo_schema "de" demo_fresh.pk)) },
       demo_w0) ∧
    _get_translated_model demo_cfg demo_schema demo_w0 marker_rec (some "de") false true =
      (.ok (TranslatedFieldsModel.init demo_schema "de" marker_rec.pk),
       { marker_rec with translations_cache := aput marker_rec.translations_cache "de" (some (TranslatedFieldsModel.init demo_schema "de" marker_rec.pk)) },
       demo_w0) ∧
    (∃ i, alookup ((TranslatedFieldsModel.save_base demo_w0 (Row.load demo_row)).2).sharedCache
        (1, (Row.load demo_row).language_code) =
      some ⟨i, (Row.load demo_row).language_code, some 1, (Row.load demo_row).values⟩) :=
  ⟨((c7_unsaved_skips_world demo_cfg demo_schema).1 demo_w0 demo_w0 demo_new none false false rfl).1,
   (c7_unsaved_skips_world demo_cfg demo_schema).2.1 demo_w0 demo_fresh "de" false (by decide) (by decide),
   (c7_unsaved_skips_world demo_cfg demo_schema).2.1 demo_w0 marker_rec "de" false (by decide) (by decide),
   (c7_unsaved_skips_world demo_cfg demo_schema).2.2 demo_w0 (Row.load demo_row) 1 rfl⟩

/-- The specified scenario, step 1: a fresh record gets `title = "Hello"`
under `en` through the proxy write path. -/
def demo_set : TranslatableModel × World :=
  set_translated_field demo_cfg demo_schema demo_w0 demo_new "title" "Hello"

/-- The specified scenario, step 2: the record is saved. -/
def demo_saved : TranslatableModel × World :=
  TranslatableModel.save demo_schema demo_set.2 demo_set.1

/-- The specified scenario, step 3: `de` is resolved with fallback. -/
def demo_resolved :
    Except Unit TranslatedFieldsModel × TranslatableModel × World :=
  _get_translated_model demo_cfg demo_schema demo_saved.2 demo_saved.1
    (some "de") true false

/-- C8: `has_translation` answers from the instance cache without resolving
when an entry (also a negative marker) is cached, and otherwise performs a
non-fallback, non-creating resolve and reports its success as a boolean;
in the specified scenario (`en` has no fallback, `fr` and `de` fall back to
`en`; only an `en` title was saved), resolving `de` with fallback returns
the English translation with title `"Hello"`, after which
`has_translation` is false for `de` and true for `en`. -/
theorem c8_has_translation_cache_first (cfg : String → String)
    (schema : List String) :
    (∀ (w : World) (self : TranslatableModel) (lc : String)
        (o : Option TranslatedFieldsModel),
      alookup self.translations_cache lc = some o →
      has_translation cfg schema w self (some lc) = (o.isSome, self, w)) ∧
    (∀ (w : World) (self : TranslatableModel) (lc : String),
      alookup self.translations_cache lc = none →
      has_translation cfg schema w self (some lc) =
        ((match (_get_translated_model cfg schema w self (some lc) false false).1 with
          | .ok _ => true
          | .error _ => false),
         (_get_translated_model cfg schema w self (some lc) false false).2.1,
         (_get_translated_model cfg schema w self (some lc) false false).2.2)) ∧
    (result_value demo_resolved.1 "title" = some "Hello" ∧
     result_lang demo_resolved.1 = some "en" ∧
     (has_translation demo_cfg demo_schema demo_resolved.2.2 demo_resolved.2.1
       (some "de")).1 = false ∧
     (has_translation demo_cfg demo_schema demo_resolved.2.2 demo_resolved.2.1
       (some "en")).1 = true) := by
  refine ⟨?_, ?_, ?_⟩
  · intro w self lc o h
    simp [has_translation, h]
  · intro w self lc h
    simp [has_translation, h]
  · exact ⟨by decide, by decide, by decide, by decide⟩

/-- Witness for C8: in the scenario state, the cached negative marker for
`de` answers `has_translation` directly, with no state change. -/
theorem c8_witness :
    has_translation demo_cfg demo_schema demo_resolved.2.2 demo_resolved.2.1
        (some "de") =
      ((none : Option TranslatedFieldsModel).isSome, demo_resolved.2.1,
       demo_resolved.2.2) :=
  (c8_has_translation_cache_first demo_cfg demo_schema).1 demo_resolved.2.2
    demo_resolved.2.1 "de" none (by decide)

end Parler
